import Mathlib

/-!
Verification of the control logic of `RadTTSModel`
(`nemo/collections/tts/models/radtts.py`): the batch adapter, the
binarization phase gate, the loss aggregation of `training_step` and
`validation_step`, the validation-epoch logging, the optimizer selection
and the inference entry points.

Tensors only matter here through the few operations the wrapper performs
on them (indexing a tuple of tensors, `size(0)`, building a zero vector,
scalar arithmetic on loss values), so a tensor is modelled as a list of
integers and a scalar loss value as a rational number.  The external
collaborators (synthesis network, `RADTTSLoss` criterion,
`AttentionBinarizationLoss`) are opaque: their outputs enter the model
functions as parameters.  `global_step` is the training framework's
non-negative step counter, modelled as a natural number; the configured
iteration thresholds are (possibly negative) integers.
-/

namespace RadTTS

/-- A tensor, reduced to the only structure this wrapper observes:
a one-dimensional view whose `size(0)` is its length. -/
abbrev Tensor := List Int

/-- The slice of `cfg.trainerConfig` the step functions read. -/
structure TrainConfig where
  binarizationStartIter : Int
  klLossStartIter : Int
deriving DecidableEq, Repr

/-- The slice of `cfg.optim` that `configure_optimizers` reads. -/
structure OptimConfig where
  name : String
  lr : ℚ
  weightDecay : ℚ
deriving DecidableEq, Repr

/-- A runtime failure of a step: `noneType` stands for the Python
`TypeError` raised when `loss` is still `None` at
`torch.zeros_like(loss)` or at `loss += binarization_loss`. -/
inductive StepError where
  | noneType
deriving DecidableEq, Repr

/-- An entry of the validation loss dictionary: the criterion produces
`(value, weight)` pairs, while `validation_step` stores the
binarization loss as a bare scalar tensor. -/
inductive LossEntry where
  | pair (value weight : ℚ)
  | bare (value : ℚ)
deriving DecidableEq, Repr

/-- Python `entry[0]`: the first component of a pair; indexing a bare
scalar (0-dimensional) tensor with `[0]` raises `IndexError`. -/
def LossEntry.index0 : LossEntry → Option ℚ
  | .pair v _ => some v
  | .bare _ => none

instance exceptDecEq {ε α : Type} [DecidableEq ε] [DecidableEq α] :
    DecidableEq (Except ε α) := fun a b =>
  match a, b with
  | .ok x, .ok y =>
    if h : x = y then isTrue (by rw [h])
    else isFalse (by intro hc; injection hc with h2; exact h h2)
  | .ok _, .error _ => isFalse (by intro hc; exact Except.noConfusion hc)
  | .error _, .ok _ => isFalse (by intro hc; exact Except.noConfusion hc)
  | .error x, .error y =>
    if h : x = y then isTrue (by rw [h])
    else isFalse (by intro hc; injection hc with h2; exact h h2)

/-- Python dict assignment `d[k] = v` on an insertion-ordered
association list: overwrite in place when the key exists, else append. -/
def dictInsert {α : Type} (l : List (String × α)) (k : String) (v : α) :
    List (String × α) :=
  if l.any (fun p => p.1 == k) then
    l.map (fun p => if p.1 == k then (k, v) else p)
  else l ++ [(k, v)]

/-- The phase gate of both steps (radtts.py lines 123-131 and 178-186):
`binarization_start_iter >= 0 and global_step >= binarization_start_iter`. -/
def binarizeFlag (binarizationStartIter : Int) (globalStep : Nat) : Bool :=
  decide (0 ≤ binarizationStartIter) &&
    decide (binarizationStartIter ≤ (globalStep : Int))

/-- One iteration of the loss-summation loop: for a term with `w > 0`,
`loss = v * w if loss is None else loss + v * w`; other terms leave the
accumulator unchanged. -/
def aggStep (loss : Option ℚ) (p : String × ℚ × ℚ) : Option ℚ :=
  if 0 < p.2.2 then
    match loss with
    | none => some (p.2.1 * p.2.2)
    | some l => some (l + p.2.1 * p.2.2)
  else loss

/-- The loss-summation loop shared by both steps (lines 148-151 and
202-205): starting from `loss = None`, each term with `w > 0`
contributes `v * w`; `none` is Python `None`, kept when no term
qualifies. -/
def aggregateLoss (lossOutputs : List (String × ℚ × ℚ)) : Option ℚ :=
  lossOutputs.foldl aggStep none

/-- The sum `Σ value_i * weight_i` over the terms with `weight_i > 0`,
as the specification words it. -/
def posWeightSum : List (String × ℚ × ℚ) → ℚ
  | [] => 0
  | p :: t => (if 0 < p.2.2 then p.2.1 * p.2.2 else 0) + posWeightSum t

/-- Everything `training_step` determines after the criterion call:
the computed phase flags, the `binarize_attention` argument passed to
the synthesis network, and (unless the step crashes) the scalar loss,
the final loss dictionary and the `("train/" + k, value)` pairs sent to
the metrics sink. -/
structure TrainResult where
  binarize : Bool
  modelBinarizeAttention : Bool
  klActive : Bool
  outcome : Except StepError (ℚ × List (String × ℚ × ℚ) × List (String × ℚ))
deriving DecidableEq, Repr

/-- `training_step` (lines 110-163), with the criterion output
`lossOutputs` and the value `klLossValue` returned by
`attention_kl_loss` taken as parameters.  The KL gate at line 153 is
`binarize and global_step >= kl_loss_start_iter` — it does not test
`kl_loss_start_iter >= 0`.  When `aggregateLoss` is `none`, both
branches crash (`loss += ...` on `None`, or `torch.zeros_like(None)`). -/
def trainingStep (cfg : TrainConfig) (globalStep : Nat)
    (lossOutputs : List (String × ℚ × ℚ)) (klLossValue : ℚ) : TrainResult :=
  let binarize := binarizeFlag cfg.binarizationStartIter globalStep
  let klActive := binarize && decide (cfg.klLossStartIter ≤ (globalStep : Int))
  { binarize := binarize
    modelBinarizeAttention := binarize
    klActive := klActive
    outcome :=
      match aggregateLoss lossOutputs with
      | none => .error .noneType
      | some l =>
        let binarizationLoss : ℚ := if klActive then klLossValue else 0
        let loss := if klActive then l + klLossValue else l
        let final := dictInsert lossOutputs "binarization_loss" (binarizationLoss, 1)
        .ok (loss, final,
          final.map (fun (p : String × ℚ × ℚ) => ("train/" ++ p.1, p.2.1))) }

/-- Everything `validation_step` determines after the criterion call;
`outcome` carries the final heterogeneous loss dictionary that the step
returns under the key `loss_outputs`. -/
structure ValResult where
  binarize : Bool
  modelBinarizeAttention : Bool
  klActive : Bool
  outcome : Except StepError (ℚ × List (String × LossEntry))
deriving DecidableEq, Repr

/-- `validation_step` (lines 165-223): the synthesis network is invoked
with the literal `binarize_attention=True` (line 193); the KL gate
(lines 207-211) is `binarize and kl_loss_start_iter >= 0 and
global_step >= kl_loss_start_iter`; the binarization loss is stored as
a bare tensor, not a `(value, weight)` pair (line 216). -/
def validationStep (cfg : TrainConfig) (globalStep : Nat)
    (lossOutputs : List (String × ℚ × ℚ)) (klLossValue : ℚ) : ValResult :=
  let binarize := binarizeFlag cfg.binarizationStartIter globalStep
  let klActive := binarize && decide (0 ≤ cfg.klLossStartIter) &&
    decide (cfg.klLossStartIter ≤ (globalStep : Int))
  { binarize := binarize
    modelBinarizeAttention := true
    klActive := klActive
    outcome :=
      match aggregateLoss lossOutputs with
      | none => .error .noneType
      | some l =>
        let binarizationLoss : ℚ := if klActive then klLossValue else 0
        let loss := if klActive then l + klLossValue else l
        let final := dictInsert
          (lossOutputs.map
            (fun (p : String × ℚ × ℚ) => (p.1, LossEntry.pair p.2.1 p.2.2)))
          "binarization_loss" (LossEntry.bare binarizationLoss)
        .ok (loss, final) }

/-- `validation_epoch_end` logging loop (lines 229-231): every key
other than `binarization_loss` is re-emitted as
`("val/" + k, loss_outputs[k][0])`. -/
def validationEpochEndLogs (lossOutputs : List (String × LossEntry)) :
    List (String × Option ℚ) :=
  (lossOutputs.filter (fun p => !(p.1 == "binarization_loss"))).map
    (fun p => ("val/" ++ p.1, p.2.index0))

/-- The named record `batch_dict` builds (lines 92-107), fields in the
order of the dict literal. -/
structure BatchDict where
  audio : Tensor
  audioLens : Tensor
  text : Tensor
  textLens : Tensor
  logMel : Tensor
  logMelLens : Tensor
  alignPriorMatrix : Tensor
  pitch : Tensor
  pitchLens : Tensor
  voicedMask : Tensor
  pVoiced : Tensor
  energy : Tensor
  energyLens : Tensor
  speakerId : Tensor
deriving DecidableEq, Repr

/-- `batch_dict` (lines 87-108): when the sequence has fewer than 14
elements, the speaker id is `torch.tensor([0] * batch_data[3].size(0))`;
otherwise it is `batch_data[13]`.  An out-of-range index raises
`IndexError`, modelled by `none`. -/
def batchDict (batchData : List Tensor) : Option BatchDict := do
  let spkId ←
    if batchData.length < 14 then do
      let textLens ← batchData[3]?
      pure (List.replicate textLens.length (0 : Int))
    else batchData[13]?
  let audio ← batchData[0]?
  let audioLens ← batchData[1]?
  let text ← batchData[2]?
  let textLens ← batchData[3]?
  let logMel ← batchData[4]?
  let logMelLens ← batchData[5]?
  let alignPriorMatrix ← batchData[6]?
  let pitch ← batchData[7]?
  let pitchLens ← batchData[8]?
  let voicedMask ← batchData[9]?
  let pVoiced ← batchData[10]?
  let energy ← batchData[11]?
  let energyLens ← batchData[12]?
  pure
    { audio := audio, audioLens := audioLens, text := text
      textLens := textLens, logMel := logMel, logMelLens := logMelLens
      alignPriorMatrix := alignPriorMatrix, pitch := pitch
      pitchLens := pitchLens, voicedMask := voicedMask, pVoiced := pVoiced
      energy := energy, energyLens := energyLens, speakerId := spkId }

/-- The optimizer constructions `configure_optimizers` can return. -/
inductive Optimizer where
  | adam (lr weightDecay : ℚ)
  | radam (lr weightDecay : ℚ)
deriving DecidableEq, Repr

/-- How `configure_optimizers` can fail: the fine-tune branch
(lines 253-259) reads the undefined global `model`, raising
`NameError`; an unrecognized optimizer name logs a message and calls
`exit(1)` (lines 266-268). -/
inductive ConfigureFailure where
  | nameErrorUndefinedModel
  | processTermination (code : Nat) (loggedMessage : String)
deriving DecidableEq, Repr

/-- `configure_optimizers` (lines 251-270), parameterized by the
configured optimizer section and fine-tune layer list. -/
def configureOptimizers (optim : OptimConfig) (finetuneLayers : List String) :
    Except ConfigureFailure Optimizer :=
  if finetuneLayers.length ≠ 0 then
    .error .nameErrorUndefinedModel
  else if optim.name = "Adam" then
    .ok (.adam optim.lr optim.weightDecay)
  else if optim.name = "RAdam" then
    .ok (.radam optim.lr optim.weightDecay)
  else
    .error (.processTermination 1 ("Unrecognized optimizer " ++ optim.name ++ "!"))

/-- Warnings emitted and whether execution reached the delegated call,
for the two entry points that check `self.training`. -/
structure CallTrace where
  warnings : List String
  proceeded : Bool
deriving DecidableEq, Repr

/-- `self.eval()`: puts the module in evaluation mode, so afterwards
`self.training` is `False` whatever it was before. -/
def evalMode (_training : Bool) : Bool := false

/-- `generate_spectrogram` (lines 303-312): `self.eval()` runs first,
then `self.training` is tested, then the call always proceeds to
`self.model.infer`. -/
def generateSpectrogram (training : Bool) : CallTrace :=
  let trainingAfterEval := evalMode training
  { warnings :=
      if trainingAfterEval then
        ["generate_spectrogram() is meant to be called in eval mode."]
      else []
    proceeded := true }

/-- `parse` (lines 368-373): `self.training` is tested as-is, a warning
is logged when it holds, and the call always proceeds to tokenization. -/
def parseText (training : Bool) : CallTrace :=
  { warnings :=
      if training then ["parse() is meant to be called in eval mode."]
      else []
    proceeded := true }

/-! Helper lemmas about the aggregation loop and dict assignment. -/

theorem aggStep_foldl_some (lossOutputs : List (String × ℚ × ℚ)) (a : ℚ) :
    lossOutputs.foldl aggStep (some a) = some (a + posWeightSum lossOutputs) := by
  induction lossOutputs generalizing a with
  | nil => simp [posWeightSum]
  | cons p t ih =>
    by_cases h : 0 < p.2.2
    · simp [List.foldl_cons, aggStep, h, ih, posWeightSum, add_assoc]
    · simp [List.foldl_cons, aggStep, h, ih, posWeightSum]

theorem aggregateLoss_eq_posWeightSum (lossOutputs : List (String × ℚ × ℚ))
    (h : ∃ p ∈ lossOutputs, 0 < p.2.2) :
    aggregateLoss lossOutputs = some (posWeightSum lossOutputs) := by
  induction lossOutputs with
  | nil => simp at h
  | cons p t ih =>
    by_cases hp : 0 < p.2.2
    · simp [aggregateLoss, List.foldl_cons, aggStep, hp, posWeightSum,
        aggStep_foldl_some]
    · obtain ⟨q, hq, hqw⟩ := h
      rcases List.mem_cons.mp hq with hq | hq
      · exact absurd (hq ▸ hqw) hp
      · have ht := ih ⟨q, hq, hqw⟩
        simpa [aggregateLoss, List.foldl_cons, aggStep, hp, posWeightSum] using ht

theorem aggregateLoss_eq_none (lossOutputs : List (String × ℚ × ℚ))
    (h : ∀ p ∈ lossOutputs, ¬ 0 < p.2.2) :
    aggregateLoss lossOutputs = none := by
  induction lossOutputs with
  | nil => rfl
  | cons p t ih =>
    have hp := h p (List.mem_cons_self p t)
    have ht := ih (fun q hq => h q (List.mem_cons_of_mem p hq))
    simpa [aggregateLoss, List.foldl_cons, aggStep, hp] using ht

theorem dictInsert_of_not_mem {α : Type} (l : List (String × α)) (k : String)
    (v : α) (h : ∀ p ∈ l, p.1 ≠ k) : dictInsert l k v = l ++ [(k, v)] := by
  unfold dictInsert
  rw [if_neg]
  simp only [List.any_eq_true, beq_iff_eq, not_exists, not_and]
  intro p hp
  exact h p hp

theorem mem_dictInsert_self {α : Type} (l : List (String × α)) (k : String)
    (v : α) : (k, v) ∈ dictInsert l k v := by
  unfold dictInsert
  by_cases h : l.any (fun p => p.1 == k)
  · rw [if_pos h]
    obtain ⟨p, hp, hpk⟩ := List.any_eq_true.mp h
    exact List.mem_map.mpr ⟨p, hp, by simp [beq_iff_eq.mp hpk]⟩
  · rw [if_neg h]
    simp

theorem validationEpochEndLogs_append_bare (l : List (String × ℚ × ℚ)) (e : ℚ)
    (hk : ∀ p ∈ l, p.1 ≠ "binarization_loss") :
    validationEpochEndLogs
      ((l.map (fun (p : String × ℚ × ℚ) => (p.1, LossEntry.pair p.2.1 p.2.2)))
        ++ [("binarization_loss", LossEntry.bare e)]) =
      l.map (fun (p : String × ℚ × ℚ) => ("val/" ++ p.1, some p.2.1)) := by
  unfold validationEpochEndLogs
  rw [List.filter_append]
  have h1 : List.filter (fun (p : String × LossEntry) =>
      !(p.1 == "binarization_loss"))
      (l.map (fun (p : String × ℚ × ℚ) => (p.1, LossEntry.pair p.2.1 p.2.2))) =
      l.map (fun (p : String × ℚ × ℚ) => (p.1, LossEntry.pair p.2.1 p.2.2)) := by
    apply List.filter_eq_self.mpr
    intro p hp
    obtain ⟨q, hq, rfl⟩ := List.mem_map.mp hp
    simpa using hk q hq
  have h2 : List.filter (fun (p : String × LossEntry) =>
      !(p.1 == "binarization_loss"))
      [("binarization_loss", LossEntry.bare e)] = [] := by simp
  rw [h1, h2, List.append_nil, List.map_map]
  rfl

/-! Claim theorems. -/

/-- C3: in both `training_step` and `validation_step` the binarize
phase flag equals `(binarization_start_iter >= 0) AND (global_step >=
binarization_start_iter)`; for every global step below a non-negative
threshold it is `False`, at or above the threshold it is `True`, and
for a negative threshold it is always `False`. -/
theorem binarize_phase_gate (cfg : TrainConfig) (globalStep : ℕ)
    (lossOutputs : List (String × ℚ × ℚ)) (klLossValue : ℚ) :
    (trainingStep cfg globalStep lossOutputs klLossValue).binarize =
      binarizeFlag cfg.binarizationStartIter globalStep ∧
    (validationStep cfg globalStep lossOutputs klLossValue).binarize =
      binarizeFlag cfg.binarizationStartIter globalStep ∧
    (binarizeFlag cfg.binarizationStartIter globalStep = true ↔
      (0 ≤ cfg.binarizationStartIter ∧
        cfg.binarizationStartIter ≤ (globalStep : ℤ))) ∧
    (0 ≤ cfg.binarizationStartIter → (globalStep : ℤ) < cfg.binarizationStartIter →
      binarizeFlag cfg.binarizationStartIter globalStep = false) ∧
    (0 ≤ cfg.binarizationStartIter → cfg.binarizationStartIter ≤ (globalStep : ℤ) →
      binarizeFlag cfg.binarizationStartIter globalStep = true) ∧
    (cfg.binarizationStartIter < 0 →
      binarizeFlag cfg.binarizationStartIter globalStep = false) := by
  refine ⟨rfl, rfl, ?_, ?_, ?_, ?_⟩ <;>
    simp only [binarizeFlag, Bool.and_eq_true, decide_eq_true_iff,
      Bool.and_eq_false_iff, decide_eq_false_iff_not] <;>
    omega

/-- Witness for C3 at concrete thresholds and steps. -/
theorem binarize_phase_gate_witness :
    binarizeFlag 5 3 = false ∧ binarizeFlag 5 7 = true ∧
    binarizeFlag (-1) 100 = false :=
  ⟨(binarize_phase_gate ⟨5, 0⟩ 3 [] 0).2.2.2.1 (by decide) (by decide),
   (binarize_phase_gate ⟨5, 0⟩ 7 [] 0).2.2.2.2.1 (by decide) (by decide),
   (binarize_phase_gate ⟨-1, 0⟩ 100 [] 0).2.2.2.2.2 (by decide)⟩

/-- C1 fails on the code: `training_step` gates the KL auxiliary loss
with `binarize and global_step >= kl_loss_start_iter` only, without
testing `kl_loss_start_iter >= 0`.  With `binarization_start_iter = 0`,
`kl_loss_start_iter = -1` and `global_step = 0`, the gate is active and
the auxiliary loss value 5 is added (total 7 = 2*1 + 5), although the
claim says a negative `kl_loss_start_iter` never adds it. -/
theorem klGate_training_negative_threshold_cex :
    ((-1 : ℤ) < 0) ∧
    (trainingStep ⟨0, -1⟩ 0 [("a", 2, 1)] 5).klActive = true ∧
    (trainingStep ⟨0, -1⟩ 0 [("a", 2, 1)] 5).outcome =
      .ok (7, [("a", 2, 1), ("binarization_loss", 5, 1)],
        [("train/a", 2), ("train/binarization_loss", 5)]) := by
  have hne : ¬ ("a" = "binarization_loss") := by decide
  refine ⟨by norm_num, rfl, ?_⟩
  norm_num [trainingStep, aggregateLoss, aggStep, dictInsert, binarizeFlag, hne]
  exact ⟨by decide, by decide⟩

/-- C1 (amended): in `validation_step` the KL gate is
`kl_active = binarize AND (kl_loss_start_iter >= 0) AND (global_step >=
kl_loss_start_iter)`, so a negative `kl_loss_start_iter` never
activates it there; in `training_step` the gate is only
`binarize AND (global_step >= kl_loss_start_iter)`, so a negative
`kl_loss_start_iter` leaves the auxiliary loss active whenever
`binarize` is (the step counter is never negative).  When the gate is
active and the step succeeds, the KL value is added to the aggregate. -/
theorem klGate_amended (cfg : TrainConfig) (globalStep : ℕ)
    (lossOutputs : List (String × ℚ × ℚ)) (klLossValue : ℚ) :
    ((validationStep cfg globalStep lossOutputs klLossValue).klActive = true ↔
      (binarizeFlag cfg.binarizationStartIter globalStep = true ∧
        0 ≤ cfg.klLossStartIter ∧ cfg.klLossStartIter ≤ (globalStep : ℤ))) ∧
    (cfg.klLossStartIter < 0 →
      (validationStep cfg globalStep lossOutputs klLossValue).klActive = false) ∧
    ((trainingStep cfg globalStep lossOutputs klLossValue).klActive = true ↔
      (binarizeFlag cfg.binarizationStartIter globalStep = true ∧
        cfg.klLossStartIter ≤ (globalStep : ℤ))) ∧
    (cfg.klLossStartIter < 0 →
      (trainingStep cfg globalStep lossOutputs klLossValue).klActive =
        (trainingStep cfg globalStep lossOutputs klLossValue).binarize) ∧
    (∀ loss final logs,
      (trainingStep cfg globalStep lossOutputs klLossValue).outcome =
        .ok (loss, final, logs) →
      ∃ l0, aggregateLoss lossOutputs = some l0 ∧
        loss = (if (trainingStep cfg globalStep lossOutputs klLossValue).klActive
          then l0 + klLossValue else l0)) := by
  refine ⟨?_, ?_, ?_, ?_, ?_⟩
  · simp only [validationStep, Bool.and_eq_true, decide_eq_true_iff]
    tauto
  · intro hneg
    simp only [validationStep, Bool.and_eq_false_iff, decide_eq_false_iff_not]
    omega
  · simp only [trainingStep, Bool.and_eq_true, decide_eq_true_iff]
  · intro hneg
    have hd : decide (cfg.klLossStartIter ≤ (globalStep : ℤ)) = true :=
      decide_eq_true_iff.mpr (by omega)
    simp only [trainingStep, hd, Bool.and_true]
  · intro loss final logs h
    simp only [trainingStep] at h ⊢
    cases hagg : aggregateLoss lossOutputs with
    | none => rw [hagg] at h; exact absurd h (by simp)
    | some l0 =>
      rw [hagg] at h
      simp only [Except.ok.injEq, Prod.mk.injEq] at h
      exact ⟨l0, rfl, h.1.symm⟩

/-- Witness for C1 (amended): with a negative `kl_loss_start_iter` the
validation gate is off even though binarization is active. -/
theorem klGate_amended_witness :
    (validationStep ⟨0, -1⟩ 0 [("a", 2, 1)] 5).klActive = false :=
  (klGate_amended ⟨0, -1⟩ 0 [("a", 2, 1)] 5).2.1 (by decide)

/-- C2: the aggregate loss is the sum `Σ value_i * weight_i` over
exactly the terms with positive weight; on the mapping
`{"a": (2.0, 1.0), "b": (3.0, 0.0)}` it is `2.0`; and every term of
the criterion output, whatever its weight, is logged individually by
`training_step` (under its `train/`-prefixed key). -/
theorem loss_aggregation_weighted_sum (cfg : TrainConfig) (globalStep : ℕ)
    (lossOutputs : List (String × ℚ × ℚ)) (klLossValue : ℚ)
    (hpos : ∃ p ∈ lossOutputs, 0 < p.2.2)
    (hkey : ∀ p ∈ lossOutputs, p.1 ≠ "binarization_loss") :
    aggregateLoss lossOutputs = some (posWeightSum lossOutputs) ∧
    aggregateLoss [("a", 2, 1), ("b", 3, 0)] = some 2 ∧
    ∃ loss final logs,
      (trainingStep cfg globalStep lossOutputs klLossValue).outcome =
        .ok (loss, final, logs) ∧
      ∀ p ∈ lossOutputs, ("train/" ++ p.1, p.2.1) ∈ logs := by
  refine ⟨aggregateLoss_eq_posWeightSum lossOutputs hpos, ?_, ?_⟩
  · norm_num [aggregateLoss, aggStep]
  · simp only [trainingStep, aggregateLoss_eq_posWeightSum lossOutputs hpos]
    refine ⟨_, _, _, rfl, ?_⟩
    intro p hp
    rw [dictInsert_of_not_mem lossOutputs "binarization_loss" _ hkey]
    exact List.mem_map.mpr ⟨p, List.mem_append_left _ hp, rfl⟩

/-- Witness for C2 on the spec's example mapping. -/
theorem loss_aggregation_weighted_sum_witness :
    aggregateLoss [("a", 2, 1), ("b", 3, 0)] = some 2 :=
  (loss_aggregation_weighted_sum ⟨0, 0⟩ 0 [("a", 2, 1), ("b", 3, 0)] 0
    (by norm_num) (by decide)).2.1

/-- C4: for every configuration and global step, `validation_step`
passes the literal `binarize_attention=True` to the synthesis network,
even when the computed binarize flag is off, while its KL-loss gate
still uses the computed flag (off flag forces the gate off, and an
active gate forces the flag on). -/
theorem validation_binarize_literal (cfg : TrainConfig) (globalStep : ℕ)
    (lossOutputs : List (String × ℚ × ℚ)) (klLossValue : ℚ) :
    (validationStep cfg globalStep lossOutputs klLossValue).modelBinarizeAttention
      = true ∧
    (validationStep cfg globalStep lossOutputs klLossValue).binarize =
      binarizeFlag cfg.binarizationStartIter globalStep ∧
    ((validationStep cfg globalStep lossOutputs klLossValue).binarize = false →
      (validationStep cfg globalStep lossOutputs klLossValue).klActive = false) ∧
    ((validationStep cfg globalStep lossOutputs klLossValue).klActive = true →
      (validationStep cfg globalStep lossOutputs klLossValue).binarize = true) := by
  refine ⟨rfl, rfl, ?_, ?_⟩ <;>
  · simp only [validationStep]
    intro h
    simp_all

/-- Witness for C4: with a negative binarization threshold the computed
flag is off, yet the network is still invoked with hard alignment. -/
theorem validation_binarize_literal_witness :
    (validationStep ⟨-1, -1⟩ 5 [("a", 2, 1)] 0).modelBinarizeAttention = true ∧
    (validationStep ⟨-1, -1⟩ 5 [("a", 2, 1)] 0).klActive = false :=
  ⟨(validation_binarize_literal ⟨-1, -1⟩ 5 [("a", 2, 1)] 0).1,
   (validation_binarize_literal ⟨-1, -1⟩ 5 [("a", 2, 1)] 0).2.2.1 (by decide)⟩

/-- C8 fails on the code: `generate_spectrogram` calls `self.eval()`
before testing `self.training`, so when invoked in training mode it
emits no warning at all (the warning branch is dead); execution still
proceeds. -/
theorem generate_spectrogram_no_warning_cex :
    (generateSpectrogram true).warnings = [] ∧
    (generateSpectrogram true).proceeded = true := by
  decide

/-- C8 (amended): `parse` invoked in training mode emits the non-fatal
warning and proceeds; `generate_spectrogram` switches the model to
evaluation mode before the check, so it never emits the warning, and it
also always proceeds.  Neither call fails on account of the mode. -/
theorem inference_mode_warning_amended (training : Bool) :
    (parseText training).proceeded = true ∧
    (training = true → (parseText training).warnings =
      ["parse() is meant to be called in eval mode."]) ∧
    (generateSpectrogram training).proceeded = true ∧
    (generateSpectrogram training).warnings = [] := by
  cases training <;> simp [parseText, generateSpectrogram, evalMode]

/-- Witness for C8 (amended): the warning `parse` emits in training
mode. -/
theorem inference_mode_warning_amended_witness :
    (parseText true).warnings = ["parse() is meant to be called in eval mode."] :=
  (inference_mode_warning_amended true).2.1 rfl

/-- C9 fails on the code: on a mapping whose only term has weight 0,
the aggregate stays `None` and `training_step` crashes (at
`torch.zeros_like(loss)` or `loss += ...`); nothing guards the
degenerate case as a configuration error. -/
theorem no_positive_weight_crash_cex :
    aggregateLoss [("a", 2, 0)] = none ∧
    (trainingStep ⟨0, 0⟩ 0 [("a", 2, 0)] 0).outcome = .error .noneType ∧
    (validationStep ⟨0, 0⟩ 0 [("a", 2, 0)] 0).outcome = .error .noneType := by
  have h : aggregateLoss [("a", 2, 0)] = none := by
    norm_num [aggregateLoss, aggStep]
  refine ⟨h, ?_, ?_⟩ <;> simp [trainingStep, validationStep, h]

/-- C9 (amended): when no term has positive weight the aggregate is
undefined (`None`) and both steps fail with the runtime error — the
code does not guard this case; when some term has positive weight the
error branch is unreachable and the step returns a result. -/
theorem no_positive_weight_amended (cfg : TrainConfig) (globalStep : ℕ)
    (lossOutputs : List (String × ℚ × ℚ)) (klLossValue : ℚ) :
    ((∀ p ∈ lossOutputs, ¬ 0 < p.2.2) →
      aggregateLoss lossOutputs = none ∧
      (trainingStep cfg globalStep lossOutputs klLossValue).outcome =
        .error .noneType ∧
      (validationStep cfg globalStep lossOutputs klLossValue).outcome =
        .error .noneType) ∧
    ((∃ p ∈ lossOutputs, 0 < p.2.2) →
      (∃ r, (trainingStep cfg globalStep lossOutputs klLossValue).outcome =
        .ok r) ∧
      (∃ r, (validationStep cfg globalStep lossOutputs klLossValue).outcome =
        .ok r)) := by
  constructor
  · intro hall
    have h := aggregateLoss_eq_none lossOutputs hall
    exact ⟨h, by simp [trainingStep, h], by simp [validationStep, h]⟩
  · intro hpos
    have h := aggregateLoss_eq_posWeightSum lossOutputs hpos
    constructor
    · cases ho : (trainingStep cfg globalStep lossOutputs klLossValue).outcome with
      | error e => simp [trainingStep, h] at ho
      | ok r => exact ⟨r, rfl⟩
    · cases ho : (validationStep cfg globalStep lossOutputs klLossValue).outcome with
      | error e => simp [validationStep, h] at ho
      | ok r => exact ⟨r, rfl⟩

/-- Witness for C9 (amended): the all-zero-weight mapping crashes the
training step. -/
theorem no_positive_weight_amended_witness :
    (trainingStep ⟨0, 0⟩ 3 [("a", 2, 0)] 0).outcome = .error .noneType :=
  ((no_positive_weight_amended ⟨0, 0⟩ 3 [("a", 2, 0)] 0).1 (by norm_num)).2.1

/-- C5: on any sequence of at least 13 tensors, `batch_dict` returns
the 14-field named record with the fields taken positionally in the
fixed order; with fewer than 14 elements the speaker id is a zero
vector of length `batch_data[3].size(0)`, and a present 14th element is
passed through unchanged as the speaker id. -/
theorem batchDict_fields (a0 a1 a2 a3 a4 a5 a6 a7 a8 a9 a10 a11 a12 : Tensor)
    (rest : List Tensor) :
    ∃ bd, batchDict (a0 :: a1 :: a2 :: a3 :: a4 :: a5 :: a6 :: a7 :: a8 ::
        a9 :: a10 :: a11 :: a12 :: rest) = some bd ∧
      bd.audio = a0 ∧ bd.audioLens = a1 ∧ bd.text = a2 ∧ bd.textLens = a3 ∧
      bd.logMel = a4 ∧ bd.logMelLens = a5 ∧ bd.alignPriorMatrix = a6 ∧
      bd.pitch = a7 ∧ bd.pitchLens = a8 ∧ bd.voicedMask = a9 ∧
      bd.pVoiced = a10 ∧ bd.energy = a11 ∧ bd.energyLens = a12 ∧
      (rest = [] → bd.speakerId = List.replicate a3.length 0) ∧
      (∀ s rest2, rest = s :: rest2 → bd.speakerId = s) := by
  cases rest with
  | nil =>
    refine ⟨_, rfl, rfl, rfl, rfl, rfl, rfl, rfl, rfl, rfl, rfl, rfl, rfl, rfl,
      rfl, fun _ => rfl, fun s rest2 hcontra => nomatch hcontra⟩
  | cons s rest2 =>
    have hb : batchDict (a0 :: a1 :: a2 :: a3 :: a4 :: a5 :: a6 :: a7 :: a8 ::
        a9 :: a10 :: a11 :: a12 :: s :: rest2) = some
        { audio := a0, audioLens := a1, text := a2, textLens := a3
          logMel := a4, logMelLens := a5, alignPriorMatrix := a6, pitch := a7
          pitchLens := a8, voicedMask := a9, pVoiced := a10, energy := a11
          energyLens := a12, speakerId := s } := by
      simp only [batchDict, List.length_cons]
      rw [if_neg (by omega)]
      simp
    refine ⟨_, hb, ?_⟩
    refine ⟨rfl, rfl, rfl, rfl, rfl, rfl, rfl, rfl, rfl, rfl, rfl, rfl, rfl,
      ?_, ?_⟩
    · intro hcontra
      exact absurd hcontra (by simp)
    · intro s2 r2 heq
      cases heq
      rfl

/-- Witness for C5: a concrete 13-tensor batch gets a zero speaker id
sized to the text-length batch dimension. -/
theorem batchDict_fields_witness :
    ∃ bd, batchDict [[1], [2], [3], [5, 7], [4], [5], [6], [7], [8], [9],
        [10], [11], [12]] = some bd ∧
      bd.speakerId = [0, 0] := by
  obtain ⟨bd, hb, -, -, -, -, -, -, -, -, -, -, -, -, -, hz, -⟩ :=
    batchDict_fields [1] [2] [3] [5, 7] [4] [5] [6] [7] [8] [9] [10] [11] [12] []
  exact ⟨bd, hb, hz rfl⟩

/-- C7: `configure_optimizers` (with no fine-tune layers configured)
maps the names `Adam` and `RAdam` to the corresponding constructions
with the configured learning rate and weight decay, and any other name
makes it log the unrecognized-optimizer message and terminate the
process with exit code 1. -/
theorem configure_optimizers_dispatch (optim : OptimConfig)
    (finetuneLayers : List String) (hft : finetuneLayers = []) :
    (optim.name = "Adam" →
      configureOptimizers optim finetuneLayers =
        .ok (.adam optim.lr optim.weightDecay)) ∧
    (optim.name = "RAdam" →
      configureOptimizers optim finetuneLayers =
        .ok (.radam optim.lr optim.weightDecay)) ∧
    (optim.name ≠ "Adam" → optim.name ≠ "RAdam" →
      configureOptimizers optim finetuneLayers =
        .error (.processTermination 1
          ("Unrecognized optimizer " ++ optim.name ++ "!"))) := by
  subst hft
  refine ⟨fun h => ?_, fun h => ?_, fun h1 h2 => ?_⟩
  · simp [configureOptimizers, h]
  · simp [configureOptimizers, h]
  · simp [configureOptimizers, h1, h2]

/-- Witness for C7: the unsupported name `SGD` terminates the process
with a logged error instead of silently falling back. -/
theorem configure_optimizers_dispatch_witness :
    configureOptimizers ⟨"SGD", 1, 0⟩ [] =
      .error (.processTermination 1 "Unrecognized optimizer SGD!") :=
  ((configure_optimizers_dispatch ⟨"SGD", 1, 0⟩ [] rfl).2.2
    (by decide) (by decide)).trans (by decide)

/-- C6: `training_step` emits every term of its final loss dictionary,
the auxiliary binarization term included, under the key
`"train/" + name`; every metric `validation_epoch_end` emits comes from
a (non-binarization) term of the validation loss dictionary under the
key `"val/" + name`. -/
theorem stage_prefix_logging (cfg : TrainConfig) (globalStep : ℕ)
    (lossOutputs : List (String × ℚ × ℚ)) (klLossValue : ℚ)
    (vlossOutputs : List (String × LossEntry))
    (hpos : ∃ p ∈ lossOutputs, 0 < p.2.2) :
    (∃ loss final logs,
      (trainingStep cfg globalStep lossOutputs klLossValue).outcome =
        .ok (loss, final, logs) ∧
      logs = final.map (fun p => ("train/" ++ p.1, p.2.1)) ∧
      ∃ b w, ("binarization_loss", b, w) ∈ final) ∧
    (∀ q ∈ validationEpochEndLogs vlossOutputs,
      ∃ p ∈ vlossOutputs, p.1 ≠ "binarization_loss" ∧
        q = ("val/" ++ p.1, p.2.index0)) := by
  constructor
  · have h := aggregateLoss_eq_posWeightSum lossOutputs hpos
    simp only [trainingStep, h]
    exact ⟨_, _, _, rfl, rfl, _, _, mem_dictInsert_self _ _ _⟩
  · intro q hq
    simp only [validationEpochEndLogs, List.mem_map] at hq
    obtain ⟨p, hp, rfl⟩ := hq
    obtain ⟨hmem, hpred⟩ := List.mem_filter.mp hp
    refine ⟨p, hmem, ?_, rfl⟩
    simpa using hpred

/-- Witness for C6: the binarization term appears in the training logs
with the `train/` prefix, and a validation log entry carries the `val/`
prefix. -/
theorem stage_prefix_logging_witness :
    (∃ loss final logs,
      (trainingStep ⟨0, 0⟩ 0 [("a", 2, 1)] 5).outcome =
        .ok (loss, final, logs) ∧
      logs = final.map (fun p => ("train/" ++ p.1, p.2.1)) ∧
      ∃ b w, ("binarization_loss", b, w) ∈ final) ∧
    (∀ q ∈ validationEpochEndLogs [("a", LossEntry.pair 2 1)],
      ∃ p ∈ [("a", LossEntry.pair 2 1)], p.1 ≠ "binarization_loss" ∧
        q = ("val/" ++ p.1, p.2.index0)) :=
  stage_prefix_logging ⟨0, 0⟩ 0 [("a", 2, 1)] 5 [("a", LossEntry.pair 2 1)]
    (by norm_num)

/-- C10: the validation loss dictionary is heterogeneous — every
non-binarization key holds a `(value, weight)` pair while
`binarization_loss` holds a bare tensor — whereas `training_step`
records the binarization term as the pair `(value, 1.0)`;
`validation_epoch_end` indexes `[0]` only on the non-binarization
entries, where it succeeds. -/
theorem validation_loss_outputs_heterogeneous (cfg : TrainConfig)
    (globalStep : ℕ) (lossOutputs : List (String × ℚ × ℚ)) (klLossValue : ℚ)
    (hpos : ∃ p ∈ lossOutputs, 0 < p.2.2)
    (hkey : ∀ p ∈ lossOutputs, p.1 ≠ "binarization_loss") :
    ∃ vloss vfinal,
      (validationStep cfg globalStep lossOutputs klLossValue).outcome =
        .ok (vloss, vfinal) ∧
      (∃ b, ("binarization_loss", LossEntry.bare b) ∈ vfinal) ∧
      (∀ p ∈ vfinal, p.1 ≠ "binarization_loss" →
        ∃ v w, p.2 = LossEntry.pair v w) ∧
      (∀ p ∈ vfinal, p.1 ≠ "binarization_loss" →
        ∃ v, p.2.index0 = some v) ∧
      validationEpochEndLogs vfinal =
        lossOutputs.map (fun p => ("val/" ++ p.1, some p.2.1)) ∧
      ∃ tloss tfinal tlogs,
        (trainingStep cfg globalStep lossOutputs klLossValue).outcome =
          .ok (tloss, tfinal, tlogs) ∧
        ∃ b, ("binarization_loss", (b, (1 : ℚ))) ∈ tfinal := by
  have h := aggregateLoss_eq_posWeightSum lossOutputs hpos
  have hkeym : ∀ p ∈ lossOutputs.map
      (fun (p : String × ℚ × ℚ) => (p.1, LossEntry.pair p.2.1 p.2.2)),
      p.1 ≠ "binarization_loss" := by
    intro p hp
    obtain ⟨q, hq, rfl⟩ := List.mem_map.mp hp
    exact hkey q hq
  have hins : ∀ e : LossEntry,
      dictInsert (lossOutputs.map
        (fun (p : String × ℚ × ℚ) => (p.1, LossEntry.pair p.2.1 p.2.2)))
        "binarization_loss" e =
      (lossOutputs.map
        (fun (p : String × ℚ × ℚ) => (p.1, LossEntry.pair p.2.1 p.2.2))) ++
        [("binarization_loss", e)] :=
    fun e => dictInsert_of_not_mem _ "binarization_loss" e hkeym
  simp only [validationStep]
  rw [h]
  refine ⟨_, _, rfl, ?_, ?_, ?_, ?_, ?_⟩
  · exact ⟨_, mem_dictInsert_self _ _ _⟩
  · intro p hp hne
    rw [hins] at hp
    rcases List.mem_append.mp hp with hp | hp
    · obtain ⟨q, hq, rfl⟩ := List.mem_map.mp hp
      exact ⟨_, _, rfl⟩
    · simp only [List.mem_singleton] at hp
      exact absurd (by rw [hp]) hne
  · intro p hp hne
    rw [hins] at hp
    rcases List.mem_append.mp hp with hp | hp
    · obtain ⟨q, hq, rfl⟩ := List.mem_map.mp hp
      exact ⟨_, rfl⟩
    · simp only [List.mem_singleton] at hp
      exact absurd (by rw [hp]) hne
  · rw [hins]
    exact validationEpochEndLogs_append_bare lossOutputs _ hkey
  · simp only [trainingStep]
    rw [h]
    exact ⟨_, _, _, rfl, _, mem_dictInsert_self _ _ _⟩

/-- Witness for C10 on a one-term criterion output. -/
theorem validation_loss_outputs_heterogeneous_witness :
    ∃ vloss vfinal,
      (validationStep ⟨0, 0⟩ 0 [("a", 2, 1)] 5).outcome = .ok (vloss, vfinal) ∧
      (∃ b, ("binarization_loss", LossEntry.bare b) ∈ vfinal) ∧
      (∀ p ∈ vfinal, p.1 ≠ "binarization_loss" →
        ∃ v w, p.2 = LossEntry.pair v w) ∧
      (∀ p ∈ vfinal, p.1 ≠ "binarization_loss" →
        ∃ v, p.2.index0 = some v) ∧
      validationEpochEndLogs vfinal =
        List.map (fun (p : String × ℚ × ℚ) => ("val/" ++ p.1, some p.2.1))
          [("a", 2, 1)] ∧
      ∃ tloss tfinal tlogs,
        (trainingStep ⟨0, 0⟩ 0 [("a", 2, 1)] 5).outcome =
          .ok (tloss, tfinal, tlogs) ∧
        ∃ b, ("binarization_loss", (b, (1 : ℚ))) ∈ tfinal :=
  validation_loss_outputs_heterogeneous ⟨0, 0⟩ 0 [("a", 2, 1)] 5
    (by norm_num) (by decide)

end RadTTS
